import Mathlib

/-!
Shallow embedding of the session monitoring and lifecycle reconciliation
engine of the `swarm` repository (Rust sources under `src/`), together with
proofs about the embedded operations.

Conventions used throughout:
* Rust `Duration` values are modelled as natural numbers of milliseconds.
* Rust `&str` / `String` values are modelled as Lean `String`; the Rust
  helpers `str::contains`, `str::starts_with`, `str::ends_with`,
  `str::trim_start_matches` and `str::trim_end_matches` are implemented
  below on `List Char` so that every definition is executable.
* A compiled regular expression is modelled by its match predicate
  `String → Bool`; the theorems quantify over arbitrary pattern lists, so
  no behaviour of a concrete regex engine is assumed.
* Filesystem and subprocess effects are modelled by explicit state records
  and outcome parameters; fallible Rust functions returning
  `anyhow::Result` become `Except String`.
-/

/-- Removes `p` from the front of `l` if `p` is literally a prefix of `l`,
returning the remainder, and `none` otherwise.  Building block for the
models of `str::starts_with` / `str::trim_start_matches`. -/
def stripPrefixOnce : List Char → List Char → Option (List Char)
  | [], l => some l
  | _ :: _, [] => none
  | p :: ps, c :: cs => if p = c then stripPrefixOnce ps cs else none

/-- Model of Rust `str::starts_with` on character lists. -/
def startsWithList (pat l : List Char) : Bool :=
  (stripPrefixOnce pat l).isSome

/-- Model of Rust `str::ends_with` on character lists. -/
def endsWithList (suf l : List Char) : Bool :=
  (stripPrefixOnce suf.reverse l.reverse).isSome

/-- Model of Rust `str::contains` (substring occurrence) on character
lists. -/
def containsSubList (pat : List Char) : List Char → Bool
  | [] => (stripPrefixOnce pat []).isSome
  | c :: cs => (stripPrefixOnce pat (c :: cs)).isSome || containsSubList pat cs

/-- Fuel-driven worker for the model of `str::trim_start_matches`: removes
the prefix `pat` as long as it is present.  The fuel is instantiated with
the length of the string, which suffices because each removal deletes at
least one character when `pat` is nonempty. -/
def trimStartAux (pat : List Char) : Nat → List Char → List Char
  | 0, l => l
  | fuel + 1, l =>
    match stripPrefixOnce pat l with
    | some rest => trimStartAux pat fuel rest
    | none => l

/-- Model of Rust `str::trim_start_matches` (for the nonempty literal
patterns used by the program): repeatedly removes a leading `pat`. -/
def trimStartList (pat l : List Char) : List Char :=
  if pat = [] then l else trimStartAux pat l.length l

/-- Model of Rust `str::trim_end_matches` (for the nonempty literal
patterns used by the program): repeatedly removes a trailing `pat`. -/
def trimEndList (pat l : List Char) : List Char :=
  (trimStartList pat.reverse l.reverse).reverse

/-- Rust `l.contains(pat)` for strings. -/
def containsSubstring (l pat : String) : Bool :=
  containsSubList pat.data l.data

/-- Rust `s.starts_with(pat)` for strings. -/
def startsWithStr (s pat : String) : Bool :=
  startsWithList pat.data s.data

/-- Rust `s.ends_with(suf)` for strings. -/
def endsWithStr (s suf : String) : Bool :=
  endsWithList suf.data s.data

/-- Rust `s.trim_start_matches(pat)` for strings. -/
def trim_start_matches (s pat : String) : String :=
  String.mk (trimStartList pat.data s.data)

/-- Rust `s.trim_end_matches(pat)` for strings. -/
def trim_end_matches (s pat : String) : String :=
  String.mk (trimEndList pat.data s.data)

/-- `AgentStatus` from `src/model.rs`. -/
inductive AgentStatus where
  | NeedsInput
  | Running
  | Idle
  | Done
  | Unknown
deriving DecidableEq, Repr

/-- `DetectionConfig` from `src/detection.rs`.  Each compiled regex in
`needs_input_patterns` is represented by its match predicate; the
thresholds are in milliseconds. -/
structure DetectionConfig where
  needs_input_patterns : List (String → Bool)
  running_threshold : Nat
  idle_threshold : Nat

/-- The running threshold built by `detection_for_agent`
(`src/detection.rs` line 33): `Duration::from_secs(5)`, i.e. 5000 ms. -/
def default_running_threshold : Nat := 5000

/-- The idle threshold built by `detection_for_agent`
(`src/detection.rs` line 34): `Duration::from_secs(30)`, i.e. 30000 ms. -/
def default_idle_threshold : Nat := 30000

/-- The explicit needs-input sentinel substring checked first by
`detect_status` (`src/detection.rs` line 51). -/
def needs_input_sentinel : String := "/swarm:needs_input"

/-- The explicit done sentinel substring checked second by
`detect_status` (`src/detection.rs` line 54). -/
def done_sentinel : String := "/swarm:done"

/-- `detect_status` from `src/detection.rs` lines 45-79: explicit sentinel
markers first (needs-input, then done), then the heuristic prompt
patterns, then the age-based fallback, and `Unknown` when no age is
available. -/
def detect_status (lines : List String) (detection : DetectionConfig)
    (age : Option Nat) : AgentStatus :=
  if lines.any (fun l => containsSubstring l needs_input_sentinel) then
    AgentStatus.NeedsInput
  else if lines.any (fun l => containsSubstring l done_sentinel) then
    AgentStatus.Done
  else if lines.any (fun l => detection.needs_input_patterns.any (fun re => re l)) then
    AgentStatus.NeedsInput
  else
    match age with
    | some age =>
      if age ≤ detection.running_threshold then AgentStatus.Running
      else if age ≤ detection.idle_threshold then AgentStatus.Idle
      else AgentStatus.Idle
    | none => AgentStatus.Unknown

/-- `SWARM_PREFIX` from `src/tmux.rs` line 30: the reserved session-name
prefix. -/
def SWARM_PREFIX : String := "swarm-"

/-- The on-disk artifacts owned by the program: the file names present in
the logs directory and the per-session entry names present in the session
metadata store directory. -/
structure StoreState where
  logFiles : List String
  sessionDirs : List String
deriving DecidableEq, Repr

/-- `cleanup_orphans` from `src/main.rs` lines 335-365.  A log-directory
file is deleted when its name has the reserved prefix, ends in `.log`, and
its name with every trailing `.log` removed (Rust `trim_end_matches`) is
not in the live set; a metadata-store entry is deleted when its name is
not in the live set. -/
def cleanup_orphans (active : List String) (st : StoreState) : StoreState :=
  { logFiles := st.logFiles.filter (fun name =>
      !(startsWithStr name SWARM_PREFIX && endsWithStr name ".log"
        && !(active.contains (trim_end_matches name ".log")))),
    sessionDirs := st.sessionDirs.filter (fun name => active.contains name) }

/-- `kill_session` from `src/tmux.rs` lines 361-376.  `exitSuccess` is
the exit status of the `tmux kill-session -t <session>` subprocess; the
host reports success exactly when the session exists, so a session that is
already gone yields `exitSuccess = false`.  The function returns an error
on every non-success exit, with no special case for an already-gone
session. -/
def kill_session (exitSuccess : Bool) (session : String) : Except String Unit :=
  if exitSuccess then Except.ok ()
  else Except.error ("tmux kill-session failed for " ++ session)

/-- `mark_done` from `src/main.rs` lines 2158-2171: kill the session,
propagating any error with `?`, and only then delete the session's
metadata directory and log file. -/
def mark_done (killExitSuccess : Bool) (session : String) (st : StoreState) :
    Except String StoreState :=
  match kill_session killExitSuccess session with
  | Except.error e => Except.error e
  | Except.ok _ =>
    Except.ok
      { logFiles := st.logFiles.erase (session ++ ".log"),
        sessionDirs := st.sessionDirs.erase session }

/-- Outcome of one `tmux pipe-pane` subprocess invocation inside
`ensure_pipe`: a successful exit, a non-success exit with a code, or an
io error from spawning the command. -/
inductive AttemptResult where
  | success
  | exitFail (code : Int)
  | ioErr (msg : String)
deriving DecidableEq, Repr

/-- The `last_error` text recorded by `ensure_pipe` for a failed
attempt (`src/tmux.rs` lines 182-187). -/
def attempt_error : AttemptResult → Option String
  | AttemptResult.success => none
  | AttemptResult.exitFail c => some ("exit code " ++ toString c)
  | AttemptResult.ioErr m => some m

/-- The retry loop of `ensure_pipe` (`src/tmux.rs` lines 167-197).
`outcome i` is the result of the `i`-th `pipe-pane` invocation.  Returns
the call's result together with the number of invocations actually made. -/
def ensure_pipe_go (outcome : Nat → AttemptResult) (session : String) :
    Nat → Nat → Option String → Except String Unit × Nat
  | 0, attempt, lastError =>
    (Except.error ("tmux pipe-pane failed for session " ++ session
      ++ " after 3 attempts: " ++ lastError.getD "unknown error"), attempt)
  | fuel + 1, attempt, _ =>
    match outcome attempt with
    | AttemptResult.success => (Except.ok (), attempt + 1)
    | r => ensure_pipe_go outcome session fuel (attempt + 1) (attempt_error r)

/-- `ensure_pipe` from `src/tmux.rs` lines 158-198: up to 3 attempts,
returning on the first success. -/
def ensure_pipe (outcome : Nat → AttemptResult) (session : String) :
    Except String Unit × Nat :=
  ensure_pipe_go outcome session 3 0 none

/-- The collision-probing loop of `unique_session_name`
(`src/main.rs` lines 2236-2248).  The candidate for counter 1 is the base
name itself; for a larger counter it is `base-counter`.  The fuel starts
at `existing.length + 1`, which is enough because the candidates are
pairwise distinct and each collision consumes a distinct element of
`existing`. -/
def unique_name_loop (existing : List String) (base : String) :
    Nat → Nat → String
  | 0, counter => if counter = 1 then base else base ++ "-" ++ toString counter
  | fuel + 1, counter =>
    let name := if counter = 1 then base else base ++ "-" ++ toString counter
    if existing.any (fun s => trim_start_matches s SWARM_PREFIX == name) then
      unique_name_loop existing base fuel (counter + 1)
    else name

/-- `unique_session_name` from `src/main.rs` lines 2236-2248, with the
result of `list_sessions()` passed in as `existing`. -/
def unique_session_name (existing : List String) (base : String) : String :=
  unique_name_loop existing base (existing.length + 1) 1

/-- A fired notification (`notify_needs_input` / `notify_done` in the
refresh block of `run_tui`, `src/main.rs` lines 1766-1777). -/
inductive Alert where
  | needsInput (name : String)
  | done (name : String)
deriving DecidableEq, Repr

/-- Lookup in the `prev_status` hash map, modelled as an association
list. -/
def lookupStatus : List (String × AgentStatus) → String → Option AgentStatus
  | [], _ => none
  | (k, v) :: rest, name => if k == name then some v else lookupStatus rest name

/-- Insert-or-replace in the `prev_status` hash map, modelled as an
association list. -/
def insertStatus : List (String × AgentStatus) → String → AgentStatus →
    List (String × AgentStatus)
  | [], name, st => [(name, st)]
  | (k, v) :: rest, name, st =>
    if k == name then (name, st) :: rest else (k, v) :: insertStatus rest name st

/-- The alerts fired for one session during one refresh pass
(`src/main.rs` lines 1759-1777): a needs-input alert when the new status
is `NeedsInput` and the previously recorded status was not, and a done
alert when the new status is `Done` and the previously recorded status
was not. -/
def session_alerts (old : Option AgentStatus) (name : String)
    (new : AgentStatus) : List Alert :=
  (if new = AgentStatus.NeedsInput ∧ old ≠ some AgentStatus.NeedsInput then
    [Alert.needsInput name] else [])
  ++ (if new = AgentStatus.Done ∧ old ≠ some AgentStatus.Done then
    [Alert.done name] else [])

/-- One refresh pass of the notification dispatcher (`src/main.rs`
lines 1755-1781): when notifications are enabled, each freshly collected
session is compared with `prev_status`, alerts are fired on qualifying
transitions, and `prev_status` is updated; when disabled, nothing
happens.  Returns the updated `prev_status` map and the alerts fired, in
order. -/
def notification_pass (enabled : Bool) (prev : List (String × AgentStatus))
    (updated : List (String × AgentStatus)) :
    List (String × AgentStatus) × List Alert :=
  if enabled then
    updated.foldl
      (fun acc p =>
        (insertStatus acc.1 p.1 p.2,
          acc.2 ++ session_alerts (lookupStatus acc.1 p.1) p.1 p.2))
      (prev, [])
  else (prev, [])

/-- The startup seeding of `prev_status` from the first reconciliation
pass (`src/main.rs` lines 803-808): the map is built from the initially
collected sessions, so no alert is fired for them at startup. -/
def seed_prev_status (sessions : List (String × AgentStatus)) :
    List (String × AgentStatus) :=
  sessions.foldl (fun m p => insertStatus m p.1 p.2) []

/-- A run of consecutive refresh passes with notifications enabled:
threads the `prev_status` map through the ticks and records the alert
list fired by each tick. -/
def notification_run (prev : List (String × AgentStatus))
    (ticks : List (List (String × AgentStatus))) :
    List (String × AgentStatus) × List (List Alert) :=
  ticks.foldl
    (fun acc tick =>
      ((notification_pass true acc.1 tick).1,
        acc.2 ++ [(notification_pass true acc.1 tick).2]))
    (prev, [])

/-! ### Helper lemmas about the string machinery -/

/-- Characterisation of `stripPrefixOnce`: it returns `some rest` exactly
when the scanned list literally decomposes as the pattern followed by
`rest`. -/
theorem stripPrefixOnce_eq_some {p l rest : List Char} :
    stripPrefixOnce p l = some rest ↔ l = p ++ rest := by
  induction p generalizing l with
  | nil => simp [stripPrefixOnce]
  | cons a ps ih =>
    cases l with
    | nil => simp [stripPrefixOnce]
    | cons c cs =>
      by_cases hac : a = c
      · subst hac
        simp [stripPrefixOnce, ih]
      · simp only [stripPrefixOnce, if_neg hac, List.cons_append]
        constructor
        · intro h
          exact Option.noConfusion h
        · intro h
          injection h with h1 _
          exact absurd h1.symm hac

/-- When the pattern is not a prefix, `trimStartAux` returns its input
for every fuel value. -/
theorem trimStartAux_of_none (pat : List Char) (fuel : Nat) (l : List Char)
    (h : stripPrefixOnce pat l = none) : trimStartAux pat fuel l = l := by
  cases fuel with
  | zero => rfl
  | succ n => simp [trimStartAux, h]

/-- Removing a leading `pat` from `pat ++ t` yields `t` when `pat` is
nonempty and does not occur again at the front of `t`. -/
theorem trimStartList_append (pat t : List Char) (hp : pat ≠ [])
    (h : stripPrefixOnce pat t = none) :
    trimStartList pat (pat ++ t) = t := by
  have hstrip : stripPrefixOnce pat (pat ++ t) = some t :=
    stripPrefixOnce_eq_some.mpr rfl
  obtain ⟨a, ps, rfl⟩ : ∃ a ps, pat = a :: ps := by
    cases pat with
    | nil => exact absurd rfl hp
    | cons a ps => exact ⟨a, ps, rfl⟩
  have hlen : ((a :: ps) ++ t).length = ((ps ++ t).length) + 1 := by
    simp [List.length_cons]
  simp only [trimStartList, if_neg hp]
  rw [hlen]
  simp only [trimStartAux, hstrip]
  exact trimStartAux_of_none _ _ _ h

/-- Rust `trim_end_matches` undoes appending a single copy of the suffix
when the base string does not itself end with that suffix. -/
theorem trim_end_matches_append (s suf : String) (hsufne : suf.data ≠ [])
    (h : endsWithStr s suf = false) :
    trim_end_matches (s ++ suf) suf = s := by
  have hnone : stripPrefixOnce suf.data.reverse s.data.reverse = none := by
    rcases hx : stripPrefixOnce suf.data.reverse s.data.reverse with _ | v
    · rfl
    · exfalso
      unfold endsWithStr endsWithList at h
      rw [hx] at h
      simp at h
  have hrevne : suf.data.reverse ≠ [] := by simpa using hsufne
  unfold trim_end_matches trimEndList
  have hdata : (s ++ suf).data = s.data ++ suf.data := rfl
  rw [hdata, List.reverse_append]
  rw [trimStartList_append _ _ hrevne hnone]
  rw [List.reverse_reverse]

/-- Idempotence of a single-predicate `List.filter`. -/
theorem filter_self_filter {α : Type} (p : α → Bool) (l : List α) :
    (l.filter p).filter p = l.filter p := by
  induction l with
  | nil => rfl
  | cons a t ih =>
    cases hpa : p a <;> simp [List.filter_cons, hpa, ih]

/-! ### Claim theorems -/

/-- Claim C1: for every list of recent output lines and every age value,
if some line contains the needs-input sentinel substring, then
`detect_status` returns `NeedsInput`, regardless of the age value and of
which other sentinel or heuristic patterns also match. -/
theorem detect_status_needs_input_sentinel_overrides
    (lines : List String) (detection : DetectionConfig) (age : Option Nat)
    (h : ∃ line ∈ lines, containsSubstring line needs_input_sentinel = true) :
    detect_status lines detection age = AgentStatus.NeedsInput := by
  have hany : (lines.any fun l => containsSubstring l needs_input_sentinel) = true :=
    List.any_eq_true.mpr h
  simp [detect_status, hany]

/-- Witness for claim C1: a window whose lines contain both sentinels and
match an always-true heuristic pattern, with a stale age, still classifies
as `NeedsInput`. -/
theorem detect_status_needs_input_sentinel_overrides_witness :
    detect_status ["run /swarm:done", "ok /swarm:needs_input [Y/n]"]
      ⟨[fun _ => true], 5000, 30000⟩ (some 999999) = AgentStatus.NeedsInput :=
  detect_status_needs_input_sentinel_overrides _ _ _
    ⟨"ok /swarm:needs_input [Y/n]", by decide, by decide⟩

/-- Claim C6: for every list of lines containing the done sentinel and not
containing the needs-input sentinel, `detect_status` returns `Done`, for
every age value and even when the lines also match heuristic needs-input
patterns. -/
theorem detect_status_done_sentinel_overrides
    (lines : List String) (detection : DetectionConfig) (age : Option Nat)
    (hdone : ∃ line ∈ lines, containsSubstring line done_sentinel = true)
    (hni : ∀ line ∈ lines, containsSubstring line needs_input_sentinel = false) :
    detect_status lines detection age = AgentStatus.Done := by
  have hanydone : (lines.any fun l => containsSubstring l done_sentinel) = true :=
    List.any_eq_true.mpr hdone
  have hanyni : (lines.any fun l => containsSubstring l needs_input_sentinel) = false :=
    List.any_eq_false.mpr (by intro x hx; simp [hni x hx])
  simp [detect_status, hanydone, hanyni]

/-- Witness for claim C6: a done-sentinel line that also matches an
always-true heuristic pattern classifies as `Done` at any age. -/
theorem detect_status_done_sentinel_overrides_witness :
    detect_status ["done /swarm:done [Y/n]"]
      ⟨[fun _ => true], 5000, 30000⟩ (some 3) = AgentStatus.Done :=
  detect_status_done_sentinel_overrides _ _ _
    ⟨"done /swarm:done [Y/n]", by decide, by decide⟩ (by decide)

/-- Claim C2: with no sentinel and no heuristic match and the default
thresholds, `detect_status` returns `Running` for `age ≤ 5s`, `Idle` for
`5s < age ≤ 30s`, `Idle` again for `age > 30s` (the two idle branches
collapse), and `Unknown` when no age value is available. -/
theorem detect_status_age_fallback
    (lines : List String) (detection : DetectionConfig)
    (hni : (lines.any fun l => containsSubstring l needs_input_sentinel) = false)
    (hdone : (lines.any fun l => containsSubstring l done_sentinel) = false)
    (hpat : (lines.any fun l => detection.needs_input_patterns.any (fun re => re l)) = false)
    (hrun : detection.running_threshold = default_running_threshold)
    (hidle : detection.idle_threshold = default_idle_threshold) :
    (∀ a : Nat, a ≤ 5000 → detect_status lines detection (some a) = AgentStatus.Running)
    ∧ (∀ a : Nat, 5000 < a → a ≤ 30000 → detect_status lines detection (some a) = AgentStatus.Idle)
    ∧ (∀ a : Nat, 30000 < a → detect_status lines detection (some a) = AgentStatus.Idle)
    ∧ detect_status lines detection none = AgentStatus.Unknown := by
  refine ⟨fun a ha => ?_, fun a h1 h2 => ?_, fun a h3 => ?_, ?_⟩
  · simp [detect_status, hni, hdone, hpat, hrun, default_running_threshold, ha]
  · have hna : ¬ a ≤ 5000 := by omega
    simp [detect_status, hni, hdone, hpat, hrun, hidle,
      default_running_threshold, default_idle_threshold, hna, h2]
  · have hna : ¬ a ≤ 5000 := by omega
    simp [detect_status, hni, hdone, hpat, hrun, hidle,
      default_running_threshold, default_idle_threshold, hna]
  · simp [detect_status, hni, hdone, hpat]

/-- Witness for claim C2: with an empty window and the default thresholds,
ages 3000 ms, 10000 ms and 99999 ms classify as `Running`, `Idle` and
`Idle`, and a missing age classifies as `Unknown`. -/
theorem detect_status_age_fallback_witness :
    detect_status [] ⟨[], 5000, 30000⟩ (some 3000) = AgentStatus.Running
    ∧ detect_status [] ⟨[], 5000, 30000⟩ (some 10000) = AgentStatus.Idle
    ∧ detect_status [] ⟨[], 5000, 30000⟩ (some 99999) = AgentStatus.Idle
    ∧ detect_status [] ⟨[], 5000, 30000⟩ none = AgentStatus.Unknown := by
  have h := detect_status_age_fallback [] ⟨[], 5000, 30000⟩ rfl rfl rfl rfl rfl
  exact ⟨h.1 3000 (by decide), h.2.1 10000 (by decide) (by decide),
    h.2.2.1 99999 (by decide), h.2.2.2⟩

/-- Claim C5: orphan garbage collection is idempotent — running
`cleanup_orphans` twice against an unchanged live-session set deletes
nothing further on the second run. -/
theorem cleanup_orphans_idempotent (active : List String) (st : StoreState) :
    cleanup_orphans active (cleanup_orphans active st) = cleanup_orphans active st := by
  simp [cleanup_orphans, filter_self_filter]

/-- Counterexample for claim C7 as stated: the live session named
`swarm-x.log` has log artifact `swarm-x.log.log`, but `trim_end_matches`
strips the `.log` suffix repeatedly, so the derived name `swarm-x` is not
found in the live set and the live session's log artifact is deleted. -/
theorem cleanup_orphans_deletes_live_log_cex :
    "swarm-x.log" ∈ ["swarm-x.log"]
    ∧ ("swarm-x.log" ++ ".log")
        ∉ (cleanup_orphans ["swarm-x.log"]
            ⟨["swarm-x.log" ++ ".log"], ["swarm-x.log"]⟩).logFiles := by
  decide

/-- Claim C7 (amended): for every session identifier in the live list
whose name does not itself end in `.log`, the same pass's
garbage-collection step deletes neither its log artifact (named
`id ++ ".log"`) nor its metadata directory; metadata directories of live
sessions are preserved unconditionally. -/
theorem cleanup_orphans_preserves_live
    (active : List String) (st : StoreState) (session : String)
    (hmem : session ∈ active) (hsuf : endsWithStr session ".log" = false) :
    ((session ++ ".log") ∈ st.logFiles →
      (session ++ ".log") ∈ (cleanup_orphans active st).logFiles)
    ∧ (session ∈ st.sessionDirs →
      session ∈ (cleanup_orphans active st).sessionDirs) := by
  have hcont : active.contains session = true := List.elem_iff.mpr hmem
  have htrim : trim_end_matches (session ++ ".log") ".log" = session :=
    trim_end_matches_append session ".log" (by decide) hsuf
  constructor
  · intro hlog
    simp only [cleanup_orphans, List.mem_filter]
    refine ⟨hlog, ?_⟩
    simp [htrim, hcont]
    exact Or.inr hmem
  · intro hdir
    simp only [cleanup_orphans, List.mem_filter]
    exact ⟨hdir, hcont⟩

/-- Witness for the amended claim C7: the live session `swarm-a` keeps its
log artifact across a garbage-collection pass. -/
theorem cleanup_orphans_preserves_live_witness :
    ("swarm-a" ++ ".log")
      ∈ (cleanup_orphans ["swarm-a"]
          ⟨["swarm-a" ++ ".log"], ["swarm-a"]⟩).logFiles :=
  (cleanup_orphans_preserves_live ["swarm-a"]
    ⟨["swarm-a" ++ ".log"], ["swarm-a"]⟩ "swarm-a"
    (by decide) (by decide)).1 (by decide)

/-- Claim C3 evaluated on the code: when the host reports the session does
not exist (the `tmux kill-session` subprocess exits without success),
`kill_session` returns an error rather than success, and `mark_done`
propagates that error before any metadata or log cleanup happens. -/
theorem mark_done_gone_session_errors :
    kill_session false "swarm-x" = Except.error "tmux kill-session failed for swarm-x"
    ∧ mark_done false "swarm-x" ⟨["swarm-x.log"], ["swarm-x"]⟩
      = Except.error "tmux kill-session failed for swarm-x" := by
  constructor <;> rfl

/-- Claim C8: session-name creation probes the live-session list and
suffixes on collision — with live sessions whose unprefixed names are
`foo` and `foo-2`, requesting `foo` yields `foo-3`; and a base name that
collides with no live session is returned unchanged. -/
theorem unique_session_name_spec :
    unique_session_name ["swarm-foo", "swarm-foo-2"] "foo" = "foo-3"
    ∧ ∀ (existing : List String) (base : String),
        (∀ s ∈ existing, trim_start_matches s SWARM_PREFIX ≠ base) →
        unique_session_name existing base = base := by
  constructor
  · decide
  · intro existing base h
    have hany : (existing.any fun s => trim_start_matches s SWARM_PREFIX == base) = false := by
      refine List.any_eq_false.mpr ?_
      intro s hs
      simp [h s hs]
    simp [unique_session_name, unique_name_loop, hany]

/-- Witness for claim C8: a collision-free base name is returned
unchanged. -/
theorem unique_session_name_spec_witness :
    unique_session_name ["swarm-foo"] "bar" = "bar" :=
  unique_session_name_spec.2 ["swarm-foo"] "bar" (by decide)

/-- Claim C9: `ensure_pipe` makes at most 3 attempts, returns an error
only when all 3 attempts fail, and when the first two attempts fail and
the third succeeds it returns success after exactly 3 attempts, surfacing
no error and making no fourth attempt. -/
theorem ensure_pipe_retry_policy (outcome : Nat → AttemptResult) (session : String) :
    (ensure_pipe outcome session).2 ≤ 3
    ∧ ((ensure_pipe outcome session).1 = Except.ok ()
        ∨ (outcome 0 ≠ AttemptResult.success ∧ outcome 1 ≠ AttemptResult.success
            ∧ outcome 2 ≠ AttemptResult.success))
    ∧ (outcome 0 ≠ AttemptResult.success → outcome 1 ≠ AttemptResult.success →
        outcome 2 = AttemptResult.success →
        ensure_pipe outcome session = (Except.ok (), 3)) := by
  cases h0 : outcome 0 <;> cases h1 : outcome 1 <;> cases h2 : outcome 2 <;>
    simp [ensure_pipe, ensure_pipe_go, h0, h1, h2, attempt_error]

/-- Witness for claim C9: with the first two attempts exiting non-zero and
the third succeeding, `ensure_pipe` returns success after 3 attempts. -/
theorem ensure_pipe_retry_policy_witness :
    ensure_pipe (fun i => if i = 2 then AttemptResult.success else AttemptResult.exitFail 1)
      "swarm-a" = (Except.ok (), 3) :=
  (ensure_pipe_retry_policy
    (fun i => if i = 2 then AttemptResult.success else AttemptResult.exitFail 1)
    "swarm-a").2.2 (by decide) (by decide) (by decide)

/-- Claim C4: for one session seeded into the baseline with `Running` and
then observed `NeedsInput`, `NeedsInput`, `Done` on the following three
refresh ticks, exactly two alerts fire — one on the tick entering
`NeedsInput` and one on the tick entering `Done` — with no alert for the
baseline `Running` observation and no repeat while `NeedsInput` is
sustained. -/
theorem notification_sequence (s : String) :
    (notification_run (seed_prev_status [(s, AgentStatus.Running)])
      [[(s, AgentStatus.NeedsInput)], [(s, AgentStatus.NeedsInput)],
        [(s, AgentStatus.Done)]]).2
    = [[Alert.needsInput s], [], [Alert.done s]] := by
  simp [notification_run, notification_pass, seed_prev_status,
    insertStatus, lookupStatus, session_alerts]

/-- Claim C10: a session with no entry in the prior-status map alerts on
its very first observation when that observation is `NeedsInput` or
`Done`, because a missing prior status is treated as "not NeedsInput" /
"not Done" rather than as a baseline. -/
theorem first_observation_alerts (prev : List (String × AgentStatus)) (s : String)
    (h : lookupStatus prev s = none) :
    (notification_pass true prev [(s, AgentStatus.NeedsInput)]).2 = [Alert.needsInput s]
    ∧ (notification_pass true prev [(s, AgentStatus.Done)]).2 = [Alert.done s] := by
  simp [notification_pass, session_alerts, h]

/-- Witness for claim C10: a session first appearing with `NeedsInput`
against an empty prior-status map fires the needs-input alert at once. -/
theorem first_observation_alerts_witness :
    (notification_pass true [] [("swarm-new", AgentStatus.NeedsInput)]).2
      = [Alert.needsInput "swarm-new"] :=
  (first_observation_alerts [] "swarm-new" rfl).1
